import Mathlib

/-!
Verification development for the SmoothMQ SQS-compatible message broker.

The SQS protocol adapter (`SendMessage`, `ReceiveMessage`, `DeleteMessage`,
`ListQueues`, `GetQueueAttributes`, `PurgeQueue`, `DeleteQueue`) is embedded
from the Go source of the protocol layer (`protocols/sqs`).  The queue engine
behind the `models.Queue` interface is not part of the available source;
definitions for it are modelled from the specification (§4.A/§4.B) and are
marked `Modelled from the spec` in their doc comments.

Go maps are modelled as association lists: iteration follows list order and
`kvGet` returns the first binding of a key.  Every statement proved below
only involves key sets without duplicate bindings, where this agrees with
Go map semantics.

Machine integers (`int`, `int64`) are modelled as `Int`; none of the embedded
code paths can overflow 64 bits on the inputs quantified over.  Byte strings
are modelled as `List Nat` with each element `< 256`.
-/

namespace SmoothMQ

/-! ## Wire model (from `protocols/sqs/models.go`) -/

/-- Wire attribute value of a `SendMessage` request (`MessageAttributeValue`
in `models.go`).  `binaryValue` is the base64 text that crosses the wire. -/
structure MessageAttributeValue where
  stringValue : String := ""
  binaryValue : String := ""
  dataType : String := ""
deriving DecidableEq

/-- Wire attribute of a received message (`MessageAttribute` in `models.go`).
`binaryValue` holds decoded bytes; JSON re-encodes them base64 on output. -/
structure MessageAttribute where
  stringValue : String := ""
  binaryValue : List Nat := []
  dataType : String := ""
deriving DecidableEq

/-- Wire request of `SendMessage` (`SendMessagePayload` in `models.go`). -/
structure SendMessagePayload where
  queueUrl : String := ""
  messageBody : String := ""
  delaySeconds : Int := 0
  messageAttributes : List (String × MessageAttributeValue) := []
deriving DecidableEq

/-- Wire response of `SendMessage` (`SendMessageResponse` in `models.go`). -/
structure SendMessageResponse where
  md5OfMessageBody : String := ""
  md5OfMessageAttributes : String := ""
  messageId : String := ""
deriving DecidableEq

/-- Wire request of `ReceiveMessage` (`ReceiveMessageRequest` in `models.go`). -/
structure ReceiveMessageRequest where
  queueUrl : String := ""
  maxNumberOfMessages : Int := 0
  visibilityTimeout : Int := 0
  waitTimeSeconds : Int := 0
deriving DecidableEq

/-- Wire shape of one received message (`Message` in `models.go`). -/
structure Message where
  messageId : String := ""
  receiptHandle : String := ""
  md5OfBody : String := ""
  body : String := ""
  messageAttributes : List (String × MessageAttribute) := []
deriving DecidableEq

/-- Wire response of `ReceiveMessage` (`ReceiveMessageResponse` in `models.go`). -/
structure ReceiveMessageResponse where
  messages : List Message := []
deriving DecidableEq

/-- Wire request of `DeleteMessage` (`DeleteMessageRequest` in `models.go`). -/
structure DeleteMessageRequest where
  queueUrl : String := ""
  receiptHandle : String := ""
deriving DecidableEq

/-- Wire response of `ListQueues` (`ListQueuesResponse` in `models.go`). -/
structure ListQueuesResponse where
  queueUrls : List String := []
deriving DecidableEq

/-- Wire request of `GetQueueAttributes` (`GetQueueAttributesRequest`). -/
structure GetQueueAttributesRequest where
  queueUrl : String := ""
deriving DecidableEq

/-- Wire response of `GetQueueAttributes` (`GetQueueAttributesResponse`). -/
structure GetQueueAttributesResponse where
  attributes : List (String × String) := []
deriving DecidableEq

/-- Wire request of `PurgeQueue` (`PurgeQueueRequest` in `models.go`). -/
structure PurgeQueueRequest where
  queueUrl : String := ""
deriving DecidableEq

/-- Wire response of `PurgeQueue` (`PurgeQueueResponse` in `models.go`). -/
structure PurgeQueueResponse where
  success : Bool := false
deriving DecidableEq

/-- Wire request of `DeleteQueue` (`DeleteQueueRequest`). -/
structure DeleteQueueRequest where
  queueUrl : String := ""
deriving DecidableEq

/-! ## Small Go standard-library models -/

/-- Model of Go `strings.HasSuffix`. -/
def goHasSuffix (s suf : String) : Bool := decide (suf.data <:+ s.data)

/-- Model of a Go `map[string]string` read with its zero-value default:
the first binding of the key in the association list, `""` if absent. -/
def kvGet (kv : List (String × String)) (k : String) : String :=
  match kv.find? (fun p => p.1 == k) with
  | some p => p.2
  | none => ""

/-- Model of Go `strings.Split(s, "/")`: split a character list at every
slash.  The result is always nonempty. -/
def splitSlash : List Char → List (List Char)
  | [] => [[]]
  | c :: rest =>
    if c = '/' then [] :: splitSlash rest
    else
      match splitSlash rest with
      | [] => [[c]]
      | seg :: segs => (c :: seg) :: segs

/-- The adapters' queue-name derivation: `tokens := strings.Split(url, "/");
queue := tokens[len(tokens)-1]`. -/
def lastSegment (url : String) : String :=
  String.mk ((splitSlash url.data).getLastD [])

/-- Decimal-digit value of a character, `none` for a non-digit. -/
def digitVal (c : Char) : Option Nat :=
  if '0' ≤ c ∧ c ≤ '9' then some (c.toNat - 48) else none

/-- Parse a nonempty all-digit character list as a natural number. -/
def parseDigits (cs : List Char) : Option Nat :=
  if cs = [] then none
  else cs.foldl (fun acc c => acc.bind fun n => (digitVal c).map fun d => n * 10 + d) (some 0)

/-- Model of Go `strconv.ParseInt(s, 10, 64)`: optional sign, one or more
decimal digits, value within the signed 64-bit range. -/
def parseInt64 (str : String) : Option Int :=
  let signDigits : Bool × List Char :=
    match str.data with
    | '+' :: rest => (false, rest)
    | '-' :: rest => (true, rest)
    | ds => (false, ds)
  match parseDigits signDigits.2 with
  | none => none
  | some n =>
    let v : Int := if signDigits.1 then -(n : Int) else (n : Int)
    if -(2 ^ 63) ≤ v ∧ v ≤ 2 ^ 63 - 1 then some v else none

/-! ## Base64 (model of Go `encoding/base64` `StdEncoding`) -/

/-- The standard base64 alphabet. -/
def b64Alphabet : List Char :=
  "ABCDEFGHIJKLMNOPQRSTUVWXYZabcdefghijklmnopqrstuvwxyz0123456789+/".data

/-- Character of a sextet value. -/
def b64Char (n : Nat) : Char := b64Alphabet.getD n 'A'

/-- Sextet value of an alphabet character, `none` otherwise. -/
def b64Index (c : Char) : Option Nat := List.indexOf? c b64Alphabet

/-- Modelled from Go `encoding/base64` `StdEncoding.EncodeToString`:
encode bytes three at a time, padding the final group with `=`. -/
def b64EncodeGroups : List Nat → List Char
  | [] => []
  | [a] => [b64Char (a / 4), b64Char (a % 4 * 16), '=', '=']
  | [a, b] => [b64Char (a / 4), b64Char (a % 4 * 16 + b / 16), b64Char (b % 16 * 4), '=']
  | a :: b :: c :: rest =>
    b64Char (a / 4) :: b64Char (a % 4 * 16 + b / 16) ::
      b64Char (b % 16 * 4 + c / 64) :: b64Char (c % 64) :: b64EncodeGroups rest

/-- Base64 encoding of a byte list as a string. -/
def b64Encode (bs : List Nat) : String := String.mk (b64EncodeGroups bs)

/-- Modelled from Go `encoding/base64` `StdEncoding.DecodeString`: decode
four characters at a time; `=` padding is only accepted at the very end. -/
def b64DecodeGroups : List Char → Option (List Nat)
  | [] => some []
  | c1 :: c2 :: c3 :: c4 :: rest =>
    match b64Index c1, b64Index c2 with
    | some v1, some v2 =>
      if c3 = '=' then
        if c4 = '=' ∧ rest = [] then some [v1 * 4 + v2 / 16] else none
      else
        match b64Index c3 with
        | some v3 =>
          if c4 = '=' then
            if rest = [] then some [v1 * 4 + v2 / 16, v2 % 16 * 16 + v3 / 4] else none
          else
            match b64Index c4 with
            | some v4 =>
              (b64DecodeGroups rest).map
                (fun bs => (v1 * 4 + v2 / 16) :: (v2 % 16 * 16 + v3 / 4) :: (v3 % 4 * 64 + v4) :: bs)
            | none => none
        | none => none
    | _, _ => none
  | _ => none

/-- Base64 decoding of a string to a byte list, `none` on malformed input. -/
def b64Decode (s : String) : Option (List Nat) := b64DecodeGroups s.data

/-! ## UTF-8 and MD5 (models of Go `string` byte conversion and `crypto/md5`) -/

/-- UTF-8 encoding of a single scalar value, as Go's `[]byte(string)` does. -/
def utf8Bytes (c : Char) : List Nat :=
  let n := c.toNat
  if n < 128 then [n]
  else if n < 2048 then [192 + n / 64, 128 + n % 64]
  else if n < 65536 then [224 + n / 4096, 128 + n / 64 % 64, 128 + n % 64]
  else [240 + n / 262144, 128 + n / 4096 % 64, 128 + n / 64 % 64, 128 + n % 64]

/-- The byte string of a Go string value. -/
def utf8Encode (s : String) : List Nat := s.data.flatMap utf8Bytes

/-- The 32-bit modulus. -/
def w32 : Nat := 4294967296

/-- Rotate a 32-bit word left by `n` bits. -/
def rotl32 (x n : Nat) : Nat := ((x <<< n) % w32) ||| (x >>> (32 - n))

/-- MD5 round constants `K[0..63]` (RFC 1321). -/
def md5K : List Nat :=
  [3614090360, 3905402710, 606105819, 3250441966,
   4118548399, 1200080426, 2821735955, 4249261313,
   1770035416, 2336552879, 4294925233, 2304563134,
   1804603682, 4254626195, 2792965006, 1236535329,
   4129170786, 3225465664, 643717713, 3921069994,
   3593408605, 38016083, 3634488961, 3889429448,
   568446438, 3275163606, 4107603335, 1163531501,
   2850285829, 4243563512, 1735328473, 2368359562,
   4294588738, 2272392833, 1839030562, 4259657740,
   2763975236, 1272893353, 4139469664, 3200236656,
   681279174, 3936430074, 3572445317, 76029189,
   3654602809, 3873151461, 530742520, 3299628645,
   4096336452, 1126891415, 2878612391, 4237533241,
   1700485571, 2399980690, 4293915773, 2240044497,
   1873313359, 4264355552, 2734768916, 1309151649,
   4149444226, 3174756917, 718787259, 3951481745]

/-- MD5 per-round left-rotation amounts `s[0..63]` (RFC 1321). -/
def md5S : List Nat :=
  [7, 12, 17, 22, 7, 12, 17, 22, 7, 12, 17, 22, 7, 12, 17, 22,
   5, 9, 14, 20, 5, 9, 14, 20, 5, 9, 14, 20, 5, 9, 14, 20,
   4, 11, 16, 23, 4, 11, 16, 23, 4, 11, 16, 23, 4, 11, 16, 23,
   6, 10, 15, 21, 6, 10, 15, 21, 6, 10, 15, 21, 6, 10, 15, 21]

/-- Little-endian 32-bit word `j` of a 64-byte block. -/
def md5M (block : List Nat) (j : Nat) : Nat :=
  block.getD (4 * j) 0 + 256 * block.getD (4 * j + 1) 0 +
    65536 * block.getD (4 * j + 2) 0 + 16777216 * block.getD (4 * j + 3) 0

/-- One MD5 round on the state `(a, b, c, d)`. -/
def md5Round (block : List Nat) (st : Nat × Nat × Nat × Nat) (i : Nat) :
    Nat × Nat × Nat × Nat :=
  let a := st.1
  let b := st.2.1
  let c := st.2.2.1
  let d := st.2.2.2
  let fg : Nat × Nat :=
    if i < 16 then ((b &&& c) ||| ((b ^^^ 4294967295) &&& d), i)
    else if i < 32 then ((d &&& b) ||| ((d ^^^ 4294967295) &&& c), (5 * i + 1) % 16)
    else if i < 48 then (b ^^^ c ^^^ d, (3 * i + 5) % 16)
    else (c ^^^ (b ||| (d ^^^ 4294967295)), (7 * i) % 16)
  let f := (fg.1 + a + md5K.getD i 0 + md5M block fg.2) % w32
  (d, (b + rotl32 f (md5S.getD i 0)) % w32, b, c)

/-- MD5 compression of one 64-byte block into the running state. -/
def md5Compress (st : Nat × Nat × Nat × Nat) (block : List Nat) :
    Nat × Nat × Nat × Nat :=
  let r := (List.range 64).foldl (md5Round block) st
  ((st.1 + r.1) % w32, (st.2.1 + r.2.1) % w32,
   (st.2.2.1 + r.2.2.1) % w32, (st.2.2.2 + r.2.2.2) % w32)

/-- Fold MD5 compression over consecutive 64-byte blocks.  The `fuel`
argument only bounds the recursion depth (any value at least the number of
blocks gives the loop semantics); it keeps the recursion structural. -/
def md5BlocksAux (fuel : Nat) (st : Nat × Nat × Nat × Nat) (bytes : List Nat) :
    Nat × Nat × Nat × Nat :=
  match fuel with
  | 0 => st
  | fuel + 1 =>
    match bytes with
    | [] => st
    | b :: rest => md5BlocksAux fuel (md5Compress st ((b :: rest).take 64)) ((b :: rest).drop 64)

/-- Fold MD5 compression over all 64-byte blocks of the input. -/
def md5Blocks (st : Nat × Nat × Nat × Nat) (bytes : List Nat) :
    Nat × Nat × Nat × Nat :=
  md5BlocksAux bytes.length st bytes

/-- MD5 padding: `0x80`, zeros to 56 mod 64, then the bit length in 8
little-endian bytes. -/
def md5Pad (bytes : List Nat) : List Nat :=
  let len := bytes.length
  bytes ++ 128 :: List.replicate ((119 - len % 64) % 64) 0 ++
    [len * 8 % 256, len * 8 / 256 % 256, len * 8 / 65536 % 256,
     len * 8 / 16777216 % 256, len * 8 / 4294967296 % 256,
     len * 8 / 1099511627776 % 256, len * 8 / 281474976710656 % 256,
     len * 8 / 72057594037927936 % 256]

/-- Little-endian bytes of a 32-bit word. -/
def le32Bytes (n : Nat) : List Nat :=
  [n % 256, n / 256 % 256, n / 65536 % 256, n / 16777216 % 256]

/-- Modelled from Go `crypto/md5`: the 16-byte MD5 digest of a byte string. -/
def md5Bytes (bytes : List Nat) : List Nat :=
  let r := md5Blocks (1732584193, 4023233417, 2562383102, 271733878) (md5Pad bytes)
  le32Bytes r.1 ++ le32Bytes r.2.1 ++ le32Bytes r.2.2.1 ++ le32Bytes r.2.2.2

/-- Lowercase hex digit of a value below 16. -/
def hexDigitChar (n : Nat) : Char := "0123456789abcdef".data.getD n '0'

/-- Model of Go `encoding/hex` `EncodeToString`: lowercase hex of bytes. -/
def hexEncodeToString (bs : List Nat) : String :=
  String.mk (bs.flatMap (fun b => [hexDigitChar (b / 16), hexDigitChar (b % 16)]))

/-- The adapters' digest: lowercase hex MD5 of a byte string. -/
def md5Hex (bytes : List Nat) : String := hexEncodeToString (md5Bytes bytes)

/-! ## Attribute translation (from `SendMessage` / `ReceiveMessage`) -/

/-- The `SendMessage` attribute flattening loop: each wire attribute writes
its type under `<name>_DataType` and, for the `String`, `Number` and
`Binary` types, its raw wire value under `<name>`. -/
def flattenAttrs (attrs : List (String × MessageAttributeValue)) :
    List (String × String) :=
  attrs.flatMap (fun p =>
    (p.1 ++ "_DataType", p.2.dataType) ::
      (if p.2.dataType = "String" then [(p.1, p.2.stringValue)]
       else if p.2.dataType = "Number" then [(p.1, p.2.stringValue)]
       else if p.2.dataType = "Binary" then [(p.1, p.2.binaryValue)]
       else []))

/-- The `ReceiveMessage` attribute rebuild for one plain key: the if/else
chain over the stored type marker `dt`, base64-decoding `Binary` values
(a failed decode is logged and leaves the zero value). -/
def recvAttr (dt v : String) : MessageAttribute :=
  if dt = "String" then { dataType := dt, stringValue := v }
  else if dt = "Number" then { dataType := dt, stringValue := v }
  else if dt = "Binary" then
    match b64Decode v with
    | some bs => { dataType := dt, binaryValue := bs }
    | none => { dataType := dt }
  else { dataType := dt }

/-- The body of the `ReceiveMessage` attribute loop for one stored key/value
pair: keys ending in `_DataType` are skipped; otherwise the attribute is
rebuilt from the `<name>_DataType` marker via `recvAttr`. -/
def unflattenOne (kv : List (String × String)) (p : String × String) :
    Option (String × MessageAttribute) :=
  if goHasSuffix p.1 "_DataType" then none
  else some (p.1, recvAttr (kvGet kv (p.1 ++ "_DataType")) p.2)

/-- The raw wire value the flatten loop stores under the plain key for the
three supported types: the base64 text for `Binary`, the string value for
`String` and `Number`. -/
def sentValue (v : MessageAttributeValue) : String :=
  if v.dataType = "Binary" then v.binaryValue else v.stringValue

/-- The `ReceiveMessage` attribute reconstruction over a stored key/value map. -/
def unflattenAttrs (kv : List (String × String)) :
    List (String × MessageAttribute) :=
  kv.filterMap (unflattenOne kv)

/-! ## Queue engine (modelled from the spec, §3/§4.A/§4.B) -/

/-- Error kinds surfaced by the engine and adapters (spec §7). -/
inductive SQSError where
  | invalidParameterValue
  | queueNotFound
  | messageNotFound
  | badReceiptHandle
deriving DecidableEq

/-- Modelled from the spec: a stored message (§3).  `visibleAt` is the
timestamp at which the message becomes (re-)eligible; `visibilityS` is the
lease length stored at enqueue time; `tombstoned` marks logical deletion.
A leased message is one whose `visibleAt` lies in the future (lazy lease
expiry, spec §4.B design (b)). -/
structure StoredMessage where
  id : Int
  tenantId : Int
  queueName : String
  body : String
  keyValues : List (String × String)
  visibleAt : Int
  visibilityS : Int
  tombstoned : Bool
deriving DecidableEq

/-- Modelled from the spec: the durable engine state — the set of queues per
tenant, all stored messages, and the monotonically increasing next id. -/
structure EngineState where
  queues : List (Int × String)
  messages : List StoredMessage
  nextId : Int
deriving DecidableEq

/-- Modelled from the spec: engine `Enqueue` (§4.B).  Validates
`delay_s ∈ [0, 900]` and `visibility_s ∈ [0, 43200]` with
`InvalidParameterValue`, fails `QueueNotFound` on a missing queue, and
inserts the message with `visible_at = now + delay_s`. -/
def enqueue (s : EngineState) (now tenantId : Int) (queueName body : String)
    (kv : List (String × String)) (delayS visibilityS : Int) :
    Except SQSError (EngineState × Int) :=
  if delayS < 0 ∨ 900 < delayS then .error .invalidParameterValue
  else if visibilityS < 0 ∨ 43200 < visibilityS then .error .invalidParameterValue
  else if (tenantId, queueName) ∈ s.queues then
    .ok ({ s with
            messages := s.messages ++
              [{ id := s.nextId, tenantId := tenantId, queueName := queueName,
                 body := body, keyValues := kv, visibleAt := now + delayS,
                 visibilityS := visibilityS, tombstoned := false }],
            nextId := s.nextId + 1 }, s.nextId)
  else .error .queueNotFound

/-- Modelled from the spec: engine `Dequeue` clamps `max_n` to `[1, 10]`
(§4.B). -/
def clampMaxN (n : Int) : Int := if n < 1 then 1 else if 10 < n then 10 else n

/-- Modelled from the spec: delivery eligibility under lazy lease expiry —
not tombstoned and `visible_at ≤ now` (§3 invariants, §4.B design (b)). -/
def eligible (now : Int) (m : StoredMessage) : Bool :=
  !m.tombstoned && decide (m.visibleAt ≤ now)

/-- Stable insertion of a message into a list sorted by `visible_at`:
the message goes before the first entry with a strictly later `visible_at`,
so entries with equal `visible_at` keep their original (id) order. -/
def insertByVis (m : StoredMessage) : List StoredMessage → List StoredMessage
  | [] => [m]
  | x :: xs => if m.visibleAt ≤ x.visibleAt then m :: x :: xs else x :: insertByVis m xs

/-- Modelled from the spec: the `(visible_at, id)` delivery order (§4.B) —
a stable sort by `visible_at` of a list already in id order. -/
def sortByVis : List StoredMessage → List StoredMessage
  | [] => []
  | x :: xs => insertByVis x (sortByVis xs)

/-- Modelled from the spec: engine `Dequeue` / storage `claim_visible`
(§4.A/§4.B).  Clamps `max_n`, selects up to that many eligible messages of
the queue in `(visible_at, id)` order, and leases each selected message
until `now` plus its stored `visibility_s`. -/
def dequeue (s : EngineState) (now tenantId : Int) (queueName : String)
    (maxN : Int) : Except SQSError (EngineState × List StoredMessage) :=
  if (tenantId, queueName) ∈ s.queues then
    let candidates := s.messages.filter
      (fun m => m.tenantId == tenantId && m.queueName == queueName && eligible now m)
    let chosen := (sortByVis candidates).take (clampMaxN maxN).toNat
    let chosenIds := chosen.map (fun m => m.id)
    .ok ({ s with
            messages := s.messages.map (fun m =>
              if m.id ∈ chosenIds then { m with visibleAt := now + m.visibilityS }
              else m) }, chosen)
  else .error .queueNotFound

/-- Modelled from the spec: engine `Delete` / storage `tombstone` (§4.A):
marks the message tombstoned, failing `MessageNotFound` when no such id
exists in the queue. -/
def engineDelete (s : EngineState) (tenantId : Int) (queueName : String)
    (messageId : Int) : Except SQSError EngineState :=
  if s.messages.any (fun m =>
      m.id == messageId && m.tenantId == tenantId && m.queueName == queueName) then
    .ok { s with
          messages := s.messages.map (fun m =>
            if m.id == messageId && m.tenantId == tenantId && m.queueName == queueName
            then { m with tombstoned := true } else m) }
  else .error .messageNotFound

/-- Filter criteria of the engine's `Filter` (`models.FilterCriteria`):
a zero `messageID` means no id constraint; `kv` pairs must all match. -/
structure FilterCriteria where
  messageID : Int := 0
  kv : List (String × String) := []
deriving DecidableEq

/-- Modelled from the spec: engine `Filter` (§4.B) — ids of the queue's
messages whose attributes match all provided pairs and, when `messageID` is
nonzero, whose id equals it. -/
def engineFilter (s : EngineState) (tenantId : Int) (queueName : String)
    (crit : FilterCriteria) : List Int :=
  (s.messages.filter (fun m =>
      m.tenantId == tenantId && m.queueName == queueName &&
        crit.kv.all (fun p => kvGet m.keyValues p.1 == p.2) &&
        (crit.messageID == 0 || m.id == crit.messageID))).map (fun m => m.id)

/-- Modelled from the spec: engine `Stats` total (§4.B) — the number of
live (non-tombstoned) messages of the queue. -/
def engineStatsTotal (s : EngineState) (tenantId : Int) (queueName : String) : Int :=
  ((s.messages.filter (fun m =>
      m.tenantId == tenantId && m.queueName == queueName && !m.tombstoned)).length : Int)

/-- Modelled from the spec: engine `ListQueues` (§4.A) — the tenant's queue
names. -/
def engineListQueues (s : EngineState) (tenantId : Int) : List String :=
  (s.queues.filter (fun q => q.1 == tenantId)).map (fun q => q.2)

/-- Modelled from the spec: engine `DeleteQueue` (§4.A) — removes the queue
and all its messages, failing `QueueNotFound` when absent. -/
def engineDeleteQueue (s : EngineState) (tenantId : Int) (queueName : String) :
    Except SQSError EngineState :=
  if (tenantId, queueName) ∈ s.queues then
    .ok { s with
          queues := s.queues.filter (fun q => !(q == (tenantId, queueName))),
          messages := s.messages.filter (fun m =>
            !(m.tenantId == tenantId && m.queueName == queueName)) }
  else .error .queueNotFound

/-! ## Protocol adapters (from the `SQS` handler methods) -/

/-- The `SendMessage` handler: hardcodes a 30 s visibility timeout, derives
the queue from the URL's final segment, flattens the attributes, enqueues,
and answers with the new id and the body's MD5 digest. -/
def sendMessage (s : EngineState) (now tenantId : Int) (req : SendMessagePayload) :
    Except SQSError (EngineState × SendMessageResponse) :=
  let visibilityTimeout : Int := 30
  let queueName := lastSegment req.queueUrl
  let kv := flattenAttrs req.messageAttributes
  match enqueue s now tenantId queueName req.messageBody kv req.delaySeconds
      visibilityTimeout with
  | .error e => .error e
  | .ok (s', messageId) =>
    .ok (s', { messageId := toString messageId,
               md5OfMessageBody := md5Hex (utf8Encode req.messageBody) })

/-- The `ReceiveMessage` handler: a zero `MaxNumberOfMessages` becomes 1,
the queue is the URL's final segment, and each dequeued message is rendered
with its id as both `MessageId` and `ReceiptHandle`, its body, the body's
MD5, and the unflattened attributes.  The request's `VisibilityTimeout`
field is never read. -/
def receiveMessage (s : EngineState) (now tenantId : Int)
    (req : ReceiveMessageRequest) :
    Except SQSError (EngineState × ReceiveMessageResponse) :=
  let maxN := if req.maxNumberOfMessages = 0 then 1 else req.maxNumberOfMessages
  let queueName := lastSegment req.queueUrl
  match dequeue s now tenantId queueName maxN with
  | .error e => .error e
  | .ok (s', msgs) =>
    .ok (s', { messages := msgs.map (fun m =>
        { messageId := toString m.id,
          receiptHandle := toString m.id,
          body := m.body,
          md5OfBody := md5Hex (utf8Encode m.body),
          messageAttributes := unflattenAttrs m.keyValues }) })

/-- The `DeleteMessage` handler: parses the receipt handle as a decimal
64-bit integer and tombstones that id in the URL's queue. -/
def deleteMessage (s : EngineState) (tenantId : Int) (req : DeleteMessageRequest) :
    Except SQSError EngineState :=
  let queueName := lastSegment req.queueUrl
  match parseInt64 req.receiptHandle with
  | none => .error .badReceiptHandle
  | some messageId => engineDelete s tenantId queueName messageId

/-- The `ListQueues` handler: the request body is never decoded; every queue
of the authenticated tenant is rendered as a URL containing the tenant id. -/
def listQueues (s : EngineState) (tenantId : Int) (_requestBody : String) :
    ListQueuesResponse :=
  { queueUrls := (engineListQueues s tenantId).map (fun q =>
      "https://sqs.us-east-1.amazonaws.com/" ++ toString tenantId ++ "/" ++ q) }

/-- The `GetQueueAttributes` handler: reports the engine's total message
count for the URL's queue. -/
def getQueueAttributes (s : EngineState) (tenantId : Int)
    (req : GetQueueAttributesRequest) : GetQueueAttributesResponse :=
  { attributes := [("ApproximateNumberOfMessages",
      toString (engineStatsTotal s tenantId (lastSegment req.queueUrl)))] }

/-- The `PurgeQueue` handler's delete loop: tombstone each id in turn,
ignoring per-delete errors (the Go loop discards `Delete`'s result). -/
def purgeLoop (s : EngineState) (tenantId : Int) (queueName : String)
    (ids : List Int) : EngineState :=
  ids.foldl (fun st mid =>
    match engineDelete st tenantId queueName mid with
    | .ok s2 => s2
    | .error _ => st) s

/-- The `PurgeQueue` handler: filters the URL's queue with empty criteria,
deletes each returned id (ignoring per-delete errors), and answers
`Success: true`. -/
def purgeQueue (s : EngineState) (tenantId : Int) (req : PurgeQueueRequest) :
    EngineState × PurgeQueueResponse :=
  let queueName := lastSegment req.queueUrl
  let s' := purgeLoop s tenantId queueName (engineFilter s tenantId queueName {})
  (s', { success := true })

/-- The `DeleteQueue` handler: deletes the URL's queue. -/
def deleteQueue (s : EngineState) (tenantId : Int) (req : DeleteQueueRequest) :
    Except SQSError EngineState :=
  engineDeleteQueue s tenantId (lastSegment req.queueUrl)

/-- Decidable equality of `Except` results, for evaluating handler outcomes
on concrete inputs. -/
instance instDecidableEqExcept {ε α : Type} [DecidableEq ε] [DecidableEq α] :
    DecidableEq (Except ε α)
  | .ok a, .ok b =>
    if h : a = b then .isTrue (by rw [h])
    else .isFalse (by intro hh; cases hh; exact h rfl)
  | .error e, .error f =>
    if h : e = f then .isTrue (by rw [h])
    else .isFalse (by intro hh; cases hh; exact h rfl)
  | .ok _, .error _ => .isFalse (by intro hh; cases hh)
  | .error _, .ok _ => .isFalse (by intro hh; cases hh)

/-! ## Concrete fixtures used by witnesses and counterexamples -/

/-- A fresh engine state: tenant 1 owns the empty queue `q`. -/
def baseState : EngineState := { queues := [(1, "q")], messages := [], nextId := 1 }

/-- The wire URL of queue `q` under tenant 1. -/
def qUrl : String := "https://sqs.us-east-1.amazonaws.com/1/q"

/-- The stored message produced by sending `hello world` to `q` at time 0. -/
def helloMsg : StoredMessage :=
  { id := 1, tenantId := 1, queueName := "q", body := "hello world",
    keyValues := [], visibleAt := 0, visibilityS := 30, tombstoned := false }

/-- The engine state after sending `hello world` to the fresh queue. -/
def helloState : EngineState :=
  { queues := [(1, "q")], messages := [helloMsg], nextId := 2 }

/-- Request sending an attribute whose name itself ends in `_DataType`. -/
def clashReq : SendMessagePayload :=
  { queueUrl := qUrl, messageBody := "b",
    messageAttributes := [("a_DataType", { dataType := "String", stringValue := "v" })] }

/-- The stored message produced by `clashReq` at time 0. -/
def clashMsg : StoredMessage :=
  { id := 1, tenantId := 1, queueName := "q", body := "b",
    keyValues := [("a_DataType_DataType", "String"), ("a_DataType", "v")],
    visibleAt := 0, visibilityS := 30, tombstoned := false }

/-- The engine state after sending `clashReq` to the fresh queue. -/
def clashState : EngineState :=
  { queues := [(1, "q")], messages := [clashMsg], nextId := 2 }

/-- Request sending one `Binary` and one `Number` attribute. -/
def attrReq : SendMessagePayload :=
  { queueUrl := qUrl, messageBody := "b",
    messageAttributes :=
      [("foo", { dataType := "Binary", binaryValue := "Af8D" }),
       ("n", { dataType := "Number", stringValue := "42" })] }

/-- The wire response of sending `hello world` to the fresh queue. -/
def helloResp : SendMessageResponse :=
  { messageId := "1", md5OfMessageBody := "5eb63bbbe01eeed093cb22bb8f5acdc3" }

/-- A receive request asking for one message with a 1 s visibility override. -/
def overrideRecvReq : ReceiveMessageRequest :=
  { queueUrl := qUrl, maxNumberOfMessages := 1, visibilityTimeout := 1 }

/-- The engine state after receiving `helloMsg` at time 1000: the lease uses
the stored 30 s, not the request's 1 s. -/
def helloLeasedState : EngineState :=
  { queues := [(1, "q")],
    messages := [{ id := 1, tenantId := 1, queueName := "q", body := "hello world",
                   keyValues := [], visibleAt := 1030, visibilityS := 30,
                   tombstoned := false }],
    nextId := 2 }

/-- The wire form of `helloMsg` as returned by `ReceiveMessage`. -/
def helloWireMsg : Message :=
  { messageId := "1", receiptHandle := "1",
    md5OfBody := "5eb63bbbe01eeed093cb22bb8f5acdc3",
    body := "hello world", messageAttributes := [] }

/-- The wire response of receiving `helloMsg`. -/
def helloRecvResp : ReceiveMessageResponse := { messages := [helloWireMsg] }

/-- The wire response of sending `clashReq`. -/
def clashSendResp : SendMessageResponse :=
  { messageId := "1", md5OfMessageBody := "92eb5ffee6ae2fec3ad71c777531578f" }

/-- The wire response of receiving `clashMsg`: no attribute survives. -/
def clashRecvResp : ReceiveMessageResponse :=
  { messages := [{ messageId := "1", receiptHandle := "1",
                   md5OfBody := "92eb5ffee6ae2fec3ad71c777531578f",
                   body := "b", messageAttributes := [] }] }

/-- The engine state after receiving `clashMsg` at time 0. -/
def clashLeasedState : EngineState :=
  { queues := [(1, "q")],
    messages := [{ id := 1, tenantId := 1, queueName := "q", body := "b",
                   keyValues := [("a_DataType_DataType", "String"), ("a_DataType", "v")],
                   visibleAt := 30, visibilityS := 30, tombstoned := false }],
    nextId := 2 }

/-- The engine state after a second message `late` lands in `helloState`
(an enqueue that interleaves after a purge has captured its id list). -/
def lateSendState : EngineState :=
  { queues := [(1, "q")],
    messages := [helloMsg,
                 { id := 2, tenantId := 1, queueName := "q", body := "late",
                   keyValues := [], visibleAt := 0, visibilityS := 30,
                   tombstoned := false }],
    nextId := 3 }

/-! ## URL parsing lemmas -/

theorem splitSlash_ne_nil (l : List Char) : splitSlash l ≠ [] := by
  induction l with
  | nil => simp [splitSlash]
  | cons c rest ih =>
    rw [splitSlash]
    by_cases hc : c = '/'
    · simp [hc]
    · simp only [if_neg hc]
      rcases h : splitSlash rest with _ | ⟨seg, segs⟩ <;> simp

theorem splitSlash_cons_slash (ys : List Char) :
    splitSlash ('/' :: ys) = [] :: splitSlash ys := by
  rw [splitSlash]
  simp

theorem splitSlash_append_length (xs ys : List Char) :
    2 ≤ (splitSlash (xs ++ '/' :: ys)).length := by
  induction xs with
  | nil =>
    rw [List.nil_append, splitSlash_cons_slash, List.length_cons]
    have : 0 < (splitSlash ys).length := List.length_pos.mpr (splitSlash_ne_nil ys)
    omega
  | cons c rest ih =>
    rw [List.cons_append, splitSlash]
    by_cases hc : c = '/'
    · simp only [if_pos hc, List.length_cons]
      omega
    · simp only [if_neg hc]
      rcases h : splitSlash (rest ++ '/' :: ys) with _ | ⟨seg, segs⟩
      · exact absurd h (splitSlash_ne_nil _)
      · rw [h] at ih
        simpa using ih

theorem splitSlash_append_getLastD (xs ys : List Char) :
    (splitSlash (xs ++ '/' :: ys)).getLastD [] = (splitSlash ys).getLastD [] := by
  induction xs with
  | nil =>
    rw [List.nil_append, splitSlash_cons_slash, List.getLastD_cons]
  | cons c rest ih =>
    rw [List.cons_append, splitSlash]
    by_cases hc : c = '/'
    · simpa only [if_pos hc, List.getLastD_cons] using ih
    · simp only [if_neg hc]
      rcases h : splitSlash (rest ++ '/' :: ys) with _ | ⟨seg, segs⟩
      · exact absurd h (splitSlash_ne_nil _)
      · have hlen := splitSlash_append_length rest ys
        rw [h] at hlen ih
        rcases segs with _ | ⟨seg2, segs2⟩
        · simp at hlen
        · simpa only [List.getLastD_cons] using ih

theorem splitSlash_no_slash (ys : List Char) (h : '/' ∉ ys) : splitSlash ys = [ys] := by
  induction ys with
  | nil => rfl
  | cons c rest ih =>
    have hc : c ≠ '/' := fun hc => h (hc ▸ List.mem_cons_self c rest)
    have hrest : '/' ∉ rest := fun hr => h (List.mem_cons_of_mem c hr)
    rw [splitSlash, if_neg hc, ih hrest]

theorem lastSegment_append (xs name : List Char) (h : '/' ∉ name) :
    lastSegment (String.mk (xs ++ '/' :: name)) = String.mk name := by
  show String.mk ((splitSlash (xs ++ '/' :: name)).getLastD []) = String.mk name
  rw [splitSlash_append_getLastD, splitSlash_no_slash name h]
  rfl

/-! ## Base64 lemmas -/

theorem b64Index_b64Char : ∀ n, n < 64 → b64Index (b64Char n) = some n := by decide

theorem b64Char_ne_pad : ∀ n, n < 64 → b64Char n ≠ '=' := by decide

theorem b64DecodeGroups_encode (bs : List Nat) (h : ∀ b ∈ bs, b < 256) :
    b64DecodeGroups (b64EncodeGroups bs) = some bs := by
  induction bs using b64EncodeGroups.induct with
  | case1 => rfl
  | case2 a =>
    have ha : a < 256 := h a (by simp)
    have e1 := b64Index_b64Char (a / 4) (by omega)
    have e2 := b64Index_b64Char (a % 4 * 16) (by omega)
    simp [b64EncodeGroups, b64DecodeGroups, e1, e2]
    omega
  | case3 a b =>
    have ha : a < 256 := h a (by simp)
    have hb : b < 256 := h b (by simp)
    have e1 := b64Index_b64Char (a / 4) (by omega)
    have e2 := b64Index_b64Char (a % 4 * 16 + b / 16) (by omega)
    have e3 := b64Index_b64Char (b % 16 * 4) (by omega)
    have ne3 : ¬(b64Char (b % 16 * 4) = '=') := b64Char_ne_pad _ (by omega)
    simp [b64EncodeGroups, b64DecodeGroups, e1, e2, e3, if_neg ne3]
    omega
  | case4 a b c rest ih =>
    have ha : a < 256 := h a (by simp)
    have hb : b < 256 := h b (by simp)
    have hc : c < 256 := h c (by simp)
    have hrest : ∀ x ∈ rest, x < 256 := fun x hx => h x (by simp [hx])
    have e1 := b64Index_b64Char (a / 4) (by omega)
    have e2 := b64Index_b64Char (a % 4 * 16 + b / 16) (by omega)
    have e3 := b64Index_b64Char (b % 16 * 4 + c / 64) (by omega)
    have e4 := b64Index_b64Char (c % 64) (by omega)
    have ne3 : ¬(b64Char (b % 16 * 4 + c / 64) = '=') := b64Char_ne_pad _ (by omega)
    have ne4 : ¬(b64Char (c % 64) = '=') := b64Char_ne_pad _ (by omega)
    simp [b64EncodeGroups, b64DecodeGroups, e1, e2, e3, e4, if_neg ne3, if_neg ne4, ih hrest]
    omega

theorem b64Decode_b64Encode (bs : List Nat) (h : ∀ b ∈ bs, b < 256) :
    b64Decode (b64Encode bs) = some bs :=
  b64DecodeGroups_encode bs h

/-! ## Attribute translation lemmas -/

theorem goHasSuffix_append (a b : String) : goHasSuffix (a ++ b) b = true := by
  simp only [goHasSuffix, String.data_append, decide_eq_true_eq]
  exact List.suffix_append _ _

theorem string_append_cancel {a b c : String} (h : a ++ c = b ++ c) : a = b := by
  apply String.ext
  have hd := congrArg String.data h
  rw [String.data_append, String.data_append] at hd
  exact List.append_cancel_right hd

theorem kvGet_cons (p : String × String) (kv : List (String × String)) (k : String) :
    kvGet (p :: kv) k = if p.1 == k then p.2 else kvGet kv k := by
  by_cases h : p.1 == k <;> simp [kvGet, List.find?_cons, h]

theorem kvGet_append_of_ne (l1 l2 : List (String × String)) (k : String)
    (h : ∀ p ∈ l1, p.1 ≠ k) : kvGet (l1 ++ l2) k = kvGet l2 k := by
  induction l1 with
  | nil => rfl
  | cons p rest ih =>
    rw [List.cons_append, kvGet_cons]
    have hp : ¬(p.1 == k) = true := by
      simp only [beq_iff_eq]
      exact h p (List.mem_cons_self p rest)
    rw [if_neg hp]
    exact ih (fun q hq => h q (List.mem_cons_of_mem p hq))

theorem flattenAttrs_cons (p : String × MessageAttributeValue)
    (rest : List (String × MessageAttributeValue)) :
    flattenAttrs (p :: rest) =
      ((p.1 ++ "_DataType", p.2.dataType) ::
        (if p.2.dataType = "String" then [(p.1, p.2.stringValue)]
         else if p.2.dataType = "Number" then [(p.1, p.2.stringValue)]
         else if p.2.dataType = "Binary" then [(p.1, p.2.binaryValue)]
         else [])) ++ flattenAttrs rest := by
  rw [flattenAttrs, List.flatMap_cons]
  rfl

theorem flattenAttrs_keys (p : String × MessageAttributeValue) :
    ∀ x ∈ ((p.1 ++ "_DataType", p.2.dataType) ::
        (if p.2.dataType = "String" then [(p.1, p.2.stringValue)]
         else if p.2.dataType = "Number" then [(p.1, p.2.stringValue)]
         else if p.2.dataType = "Binary" then [(p.1, p.2.binaryValue)]
         else [])),
      x.1 = p.1 ++ "_DataType" ∨ x.1 = p.1 := by
  intro x hx
  rcases List.mem_cons.mp hx with rfl | hx'
  · exact Or.inl rfl
  · split at hx' <;> try split at hx'
    all_goals simp_all

theorem kvGet_flatten_marker (attrs : List (String × MessageAttributeValue))
    (hnodup : (attrs.map Prod.fst).Nodup)
    (hnosuf : ∀ p ∈ attrs, goHasSuffix p.1 "_DataType" = false) :
    ∀ p ∈ attrs, kvGet (flattenAttrs attrs) (p.1 ++ "_DataType") = p.2.dataType := by
  induction attrs with
  | nil => simp
  | cons q rest ih =>
    intro p hp
    rw [flattenAttrs_cons]
    rcases List.mem_cons.mp hp with rfl | hp'
    · rw [List.cons_append, kvGet_cons]
      simp
    · have hq1 : q.1 ≠ p.1 := by
        intro he
        have : p.1 ∈ rest.map Prod.fst := List.mem_map_of_mem Prod.fst hp'
        rw [List.map_cons, List.nodup_cons] at hnodup
        exact hnodup.1 (he ▸ this)
      have hblock : ∀ x ∈ ((q.1 ++ "_DataType", q.2.dataType) ::
          (if q.2.dataType = "String" then [(q.1, q.2.stringValue)]
           else if q.2.dataType = "Number" then [(q.1, q.2.stringValue)]
           else if q.2.dataType = "Binary" then [(q.1, q.2.binaryValue)]
           else [])), x.1 ≠ p.1 ++ "_DataType" := by
        intro x hx
        rcases flattenAttrs_keys q x hx with hk | hk
        · rw [hk]
          intro he
          exact hq1 (string_append_cancel he)
        · rw [hk]
          intro he
          have : goHasSuffix q.1 "_DataType" = true := he ▸ goHasSuffix_append p.1 _
          rw [hnosuf q (List.mem_cons_self q rest)] at this
          cases this
      rw [kvGet_append_of_ne _ _ _ hblock]
      refine ih hnodup.of_cons (fun r hr => hnosuf r (List.mem_cons_of_mem q hr)) p hp'

theorem unflattenOne_marker (kv : List (String × String)) (k dt : String) :
    unflattenOne kv (k ++ "_DataType", dt) = none := by
  simp [unflattenOne, goHasSuffix_append]

theorem filterMap_flatten_eq (kvFull : List (String × String))
    (attrs : List (String × MessageAttributeValue))
    (hnosuf : ∀ p ∈ attrs, goHasSuffix p.1 "_DataType" = false)
    (hdt : ∀ p ∈ attrs,
      p.2.dataType = "String" ∨ p.2.dataType = "Number" ∨ p.2.dataType = "Binary") :
    (flattenAttrs attrs).filterMap (unflattenOne kvFull) =
      attrs.map (fun p =>
        (p.1, recvAttr (kvGet kvFull (p.1 ++ "_DataType")) (sentValue p.2))) := by
  induction attrs with
  | nil => rfl
  | cons q rest ih =>
    rw [flattenAttrs_cons, List.filterMap_append, List.filterMap_cons,
      unflattenOne_marker, List.map_cons]
    have hq := hnosuf q (List.mem_cons_self q rest)
    have htail := ih (fun r hr => hnosuf r (List.mem_cons_of_mem q hr))
      (fun r hr => hdt r (List.mem_cons_of_mem q hr))
    have hneg : ¬(goHasSuffix q.1 "_DataType" = true) := by
      rw [hq]
      exact Bool.false_ne_true
    rcases hdt q (List.mem_cons_self q rest) with hd | hd | hd
    · have hone : unflattenOne kvFull (q.1, q.2.stringValue) =
          some (q.1, recvAttr (kvGet kvFull (q.1 ++ "_DataType")) q.2.stringValue) := by
        rw [unflattenOne, if_neg hneg]
      simp [hd, sentValue, hone, htail]
    · have hone : unflattenOne kvFull (q.1, q.2.stringValue) =
          some (q.1, recvAttr (kvGet kvFull (q.1 ++ "_DataType")) q.2.stringValue) := by
        rw [unflattenOne, if_neg hneg]
      simp [hd, sentValue, hone, htail]
    · have hone : unflattenOne kvFull (q.1, q.2.binaryValue) =
          some (q.1, recvAttr (kvGet kvFull (q.1 ++ "_DataType")) q.2.binaryValue) := by
        rw [unflattenOne, if_neg hneg]
      simp [hd, sentValue, hone, htail]

/-! ## Claim C10 -/

/-- C10: for every message returned by `ReceiveMessage`, no key of its
`MessageAttributes` ends with the suffix `_DataType`; consequently an
attribute sent under a name that itself ends in `_DataType` is never
returned to the receiver. -/
theorem c10_no_datatype_keys_returned :
    (∀ (kv : List (String × String)) (p : String × MessageAttribute),
        p ∈ unflattenAttrs kv → goHasSuffix p.1 "_DataType" = false) ∧
    (∀ (attrs : List (String × MessageAttributeValue))
        (p : String × MessageAttributeValue), p ∈ attrs →
        goHasSuffix p.1 "_DataType" = true →
        p.1 ∉ (unflattenAttrs (flattenAttrs attrs)).map Prod.fst) := by
  have hmain : ∀ (kv : List (String × String)) (p : String × MessageAttribute),
      p ∈ unflattenAttrs kv → goHasSuffix p.1 "_DataType" = false := by
    intro kv p hp
    rcases List.mem_filterMap.mp hp with ⟨q, _, hsome⟩
    rw [unflattenOne] at hsome
    by_cases h : goHasSuffix q.1 "_DataType" = true
    · rw [if_pos h] at hsome
      cases hsome
    · rw [if_neg h] at hsome
      have hpq := Option.some.inj hsome
      rw [← hpq]
      simpa using h
  refine ⟨hmain, ?_⟩
  intro attrs p _ hsuf hmem
  rcases List.mem_map.mp hmem with ⟨x, hx, hx1⟩
  have := hmain (flattenAttrs attrs) x hx
  rw [hx1, hsuf] at this
  cases this

/-- Witness for C10 at concrete inputs: the key `foo` of the one attribute
reconstructed from the store `[("foo", "x")]` does not end in `_DataType`,
and the attribute sent under the name `a_DataType` in `clashReq` is absent
from the received attribute keys. -/
theorem c10_witness :
    goHasSuffix ("foo" : String) "_DataType" = false ∧
    ("a_DataType" : String) ∉
      (unflattenAttrs (flattenAttrs clashReq.messageAttributes)).map Prod.fst :=
  ⟨c10_no_datatype_keys_returned.1 [("foo", "x")] ("foo", { dataType := "" })
      (by decide),
   c10_no_datatype_keys_returned.2 clashReq.messageAttributes
      ("a_DataType", { dataType := "String", stringValue := "v" })
      (by decide) (by decide)⟩

/-! ## Claim C9 -/

/-- C9: the `ListQueues` response contains a queue URL for every queue owned
by the authenticated tenant, and the request body (hence any name filter
inside it) is never decoded, so the response does not depend on it. -/
theorem c9_listQueues_ignores_body (s : EngineState) (tenantId : Int)
    (body1 body2 : String) :
    listQueues s tenantId body1 = listQueues s tenantId body2 ∧
    ∀ q, (tenantId, q) ∈ s.queues →
      ("https://sqs.us-east-1.amazonaws.com/" ++ toString tenantId ++ "/" ++ q)
        ∈ (listQueues s tenantId body1).queueUrls := by
  refine ⟨rfl, ?_⟩
  intro q hq
  show _ ∈ (engineListQueues s tenantId).map _
  refine List.mem_map_of_mem _ ?_
  show q ∈ (s.queues.filter _).map _
  refine List.mem_map.mpr ⟨(tenantId, q), ?_, rfl⟩
  rw [List.mem_filter]
  exact ⟨hq, by simp⟩

/-- Witness for C9: on the fresh state, the response ignores two different
bodies and lists the URL of queue `q`. -/
theorem c9_witness :
    listQueues baseState 1 "" = listQueues baseState 1 "abc" ∧
    ("https://sqs.us-east-1.amazonaws.com/" ++ toString (1 : Int) ++ "/" ++ "q")
      ∈ (listQueues baseState 1 "").queueUrls :=
  ⟨(c9_listQueues_ignores_body baseState 1 "" "abc").1,
   (c9_listQueues_ignores_body baseState 1 "" "abc").2 "q" (by decide)⟩

/-! ## Claim C2 -/

/-- C2: every successful `SendMessage` response carries
`MD5OfMessageBody = hex(md5(MessageBody bytes))`, and every message returned
by `ReceiveMessage` carries `MD5OfBody = hex(md5(Body bytes))`. -/
theorem c2_md5_digests :
    (∀ (s : EngineState) (now tenantId : Int) (req : SendMessagePayload)
        (s' : EngineState) (resp : SendMessageResponse),
        sendMessage s now tenantId req = .ok (s', resp) →
        resp.md5OfMessageBody = md5Hex (utf8Encode req.messageBody)) ∧
    (∀ (s : EngineState) (now tenantId : Int) (req : ReceiveMessageRequest)
        (s' : EngineState) (resp : ReceiveMessageResponse),
        receiveMessage s now tenantId req = .ok (s', resp) →
        ∀ m ∈ resp.messages, m.md5OfBody = md5Hex (utf8Encode m.body)) := by
  constructor
  · intro s now t req s' resp h
    rw [sendMessage] at h
    rcases he : enqueue s now t (lastSegment req.queueUrl) req.messageBody
        (flattenAttrs req.messageAttributes) req.delaySeconds 30 with e | ⟨s1, mid⟩
    · rw [he] at h
      cases h
    · rw [he] at h
      cases h
      rfl
  · intro s now t req s' resp h
    rw [receiveMessage] at h
    rcases hd : dequeue s now t (lastSegment req.queueUrl)
        (if req.maxNumberOfMessages = 0 then 1 else req.maxNumberOfMessages)
      with e | ⟨s1, msgs⟩
    · rw [hd] at h
      cases h
    · rw [hd] at h
      cases h
      intro m hm
      rcases List.mem_map.mp hm with ⟨sm, _, rfl⟩
      rfl

set_option maxRecDepth 100000 in
/-- Witness for C2: sending `hello world` to the fresh queue yields the
response fixture, whose digest field is the MD5 of the body; receiving it
yields a message whose `MD5OfBody` is the MD5 of its body. -/
theorem c2_witness :
    helloResp.md5OfMessageBody = md5Hex (utf8Encode "hello world") ∧
    ∀ m ∈ helloRecvResp.messages, m.md5OfBody = md5Hex (utf8Encode m.body) :=
  ⟨c2_md5_digests.1 baseState 0 1 { queueUrl := qUrl, messageBody := "hello world" }
      helloState helloResp (by decide),
   c2_md5_digests.2 helloState 1000 1 overrideRecvReq helloLeasedState helloRecvResp
      (by decide)⟩

/-! ## Claim C4 -/

theorem dequeue_congr (s : EngineState) (now tenantId : Int) (queueName : String)
    (m1 m2 : Int) (h : clampMaxN m1 = clampMaxN m2) :
    dequeue s now tenantId queueName m1 = dequeue s now tenantId queueName m2 := by
  unfold dequeue
  rw [h]

/-- C4: a `MaxNumberOfMessages` of 0 (or absent, which decodes to 0) is
treated as 1, and any value above 10 is clamped to 10 before messages are
dequeued: the receive behaves exactly as with 1, respectively 10. -/
theorem c4_max_messages_clamped (s : EngineState) (now tenantId : Int)
    (req : ReceiveMessageRequest) (m : Int) :
    (req.maxNumberOfMessages = 0 →
      receiveMessage s now tenantId req =
        receiveMessage s now tenantId { req with maxNumberOfMessages := 1 }) ∧
    (10 < m →
      receiveMessage s now tenantId { req with maxNumberOfMessages := m } =
        receiveMessage s now tenantId { req with maxNumberOfMessages := 10 }) := by
  constructor
  · intro h0
    rw [receiveMessage, receiveMessage]
    simp [h0]
  · intro h10
    rw [receiveMessage, receiveMessage]
    have hm0 : ¬(m = 0) := by omega
    have hc : clampMaxN m = clampMaxN 10 := by
      rw [clampMaxN, clampMaxN]
      rw [if_neg (by omega : ¬(m < 1)), if_pos h10]
      norm_num
    simp only [hm0, if_false, if_neg (by norm_num : ¬((10 : Int) = 0))]
    rw [dequeue_congr s now tenantId _ m 10 hc]

/-- Witness for C4 at concrete inputs: on the fresh queue, receiving with
the request's zero default equals receiving with 1, and receiving with 11
equals receiving with 10. -/
theorem c4_witness :
    (receiveMessage baseState 0 1 { queueUrl := qUrl } =
      receiveMessage baseState 0 1 { queueUrl := qUrl, maxNumberOfMessages := 1 }) ∧
    (receiveMessage baseState 0 1 { queueUrl := qUrl, maxNumberOfMessages := 11 } =
      receiveMessage baseState 0 1 { queueUrl := qUrl, maxNumberOfMessages := 10 }) :=
  ⟨(c4_max_messages_clamped baseState 0 1 { queueUrl := qUrl } 11).1 rfl,
   (c4_max_messages_clamped baseState 0 1 { queueUrl := qUrl } 11).2 (by decide)⟩

/-! ## Claim C5 -/

/-- C5: `SendMessage` with `DelaySeconds` outside `[0, 900]` fails with
`InvalidParameterValue` (in particular 901 is rejected), while 900 is
accepted and the stored message becomes eligible for delivery exactly from
900 seconds after the send. -/
theorem c5_delay_bounds (s : EngineState) (now tenantId : Int)
    (req : SendMessagePayload) (d : Int) :
    ((d < 0 ∨ 900 < d) →
      sendMessage s now tenantId { req with delaySeconds := d } =
        .error .invalidParameterValue) ∧
    ((tenantId, lastSegment req.queueUrl) ∈ s.queues →
      ∃ s' resp,
        sendMessage s now tenantId { req with delaySeconds := 900 } = .ok (s', resp) ∧
        ∃ m, m ∈ s'.messages ∧ m.id = s.nextId ∧ m.visibleAt = now + 900 ∧
          (∀ t' : Int, eligible t' m = true ↔ now + 900 ≤ t')) := by
  constructor
  · intro hd
    rw [sendMessage, enqueue]
    simp only [if_pos hd]
  · intro hq
    rw [sendMessage, enqueue]
    rw [if_neg (by omega : ¬((900 : Int) < 0 ∨ (900 : Int) < 900))]
    rw [if_neg (by omega : ¬((30 : Int) < 0 ∨ (43200 : Int) < 30))]
    rw [if_pos hq]
    refine ⟨_, _, rfl, ?_⟩
    refine ⟨_, List.mem_append_right _ (List.mem_singleton_self _), rfl, rfl, ?_⟩
    intro t'
    simp [eligible]

/-- Witness for C5 at concrete inputs: on the fresh queue, a delay of 901 is
rejected with `InvalidParameterValue`, and a delay of 900 is accepted with
the stored message eligible exactly from time 900. -/
theorem c5_witness :
    (sendMessage baseState 0 1 { queueUrl := qUrl, messageBody := "x", delaySeconds := 901 } =
      .error .invalidParameterValue) ∧
    (∃ s' resp,
      sendMessage baseState 0 1 { queueUrl := qUrl, messageBody := "x", delaySeconds := 900 } =
        .ok (s', resp) ∧
      ∃ m, m ∈ s'.messages ∧ m.id = baseState.nextId ∧ m.visibleAt = 0 + 900 ∧
        (∀ t' : Int, eligible t' m = true ↔ 0 + 900 ≤ t')) :=
  ⟨(c5_delay_bounds baseState 0 1 { queueUrl := qUrl, messageBody := "x" } 901).1
      (by decide),
   (c5_delay_bounds baseState 0 1 { queueUrl := qUrl, messageBody := "x" } 901).2
      (by decide)⟩

/-! ## Claim C6 -/

set_option maxRecDepth 100000 in
/-- C6 (divergence witness): the visibility timeout applied by
`ReceiveMessage` is the 30 s hardcoded at `SendMessage` time, not the
request's `VisibilityTimeout`.  Receiving at time 1000 with a requested
timeout of 1 leases the message until 1030, not 1001: the request field is
never read. -/
theorem c6_visibility_override_ignored :
    overrideRecvReq.visibilityTimeout = 1 ∧
    sendMessage baseState 0 1 { queueUrl := qUrl, messageBody := "hello world" } =
      .ok (helloState, helloResp) ∧
    receiveMessage helloState 1000 1 overrideRecvReq =
      .ok (helloLeasedState, helloRecvResp) ∧
    helloLeasedState.messages.map StoredMessage.visibleAt = [1030] ∧
    (1030 : Int) = 1000 + 30 ∧ (1030 : Int) ≠ 1000 + 1 := by
  refine ⟨rfl, by decide, by decide, rfl, rfl, by decide⟩

/-! ## Claim C3 -/

/-- C3: every wire operation that takes a `QueueUrl` acts on the queue named
by the URL's final path segment under the authenticated tenant; the tenant
segment inside the URL is never used, so two requests identical except for
that segment produce the same effect and the same response. -/
theorem c3_tenant_segment_ignored (pre t1 t2 name : List Char) (h : '/' ∉ name)
    (s : EngineState) (now tenantId : Int) :
    (∀ body delay attrs,
      sendMessage s now tenantId
          { queueUrl := String.mk (pre ++ '/' :: t1 ++ '/' :: name),
            messageBody := body, delaySeconds := delay, messageAttributes := attrs } =
        sendMessage s now tenantId
          { queueUrl := String.mk (pre ++ '/' :: t2 ++ '/' :: name),
            messageBody := body, delaySeconds := delay, messageAttributes := attrs }) ∧
    (∀ maxN vis wait,
      receiveMessage s now tenantId
          { queueUrl := String.mk (pre ++ '/' :: t1 ++ '/' :: name),
            maxNumberOfMessages := maxN, visibilityTimeout := vis,
            waitTimeSeconds := wait } =
        receiveMessage s now tenantId
          { queueUrl := String.mk (pre ++ '/' :: t2 ++ '/' :: name),
            maxNumberOfMessages := maxN, visibilityTimeout := vis,
            waitTimeSeconds := wait }) ∧
    (∀ rh,
      deleteMessage s tenantId
          { queueUrl := String.mk (pre ++ '/' :: t1 ++ '/' :: name),
            receiptHandle := rh } =
        deleteMessage s tenantId
          { queueUrl := String.mk (pre ++ '/' :: t2 ++ '/' :: name),
            receiptHandle := rh }) ∧
    (getQueueAttributes s tenantId
        { queueUrl := String.mk (pre ++ '/' :: t1 ++ '/' :: name) } =
      getQueueAttributes s tenantId
        { queueUrl := String.mk (pre ++ '/' :: t2 ++ '/' :: name) }) ∧
    (purgeQueue s tenantId { queueUrl := String.mk (pre ++ '/' :: t1 ++ '/' :: name) } =
      purgeQueue s tenantId { queueUrl := String.mk (pre ++ '/' :: t2 ++ '/' :: name) }) ∧
    (deleteQueue s tenantId { queueUrl := String.mk (pre ++ '/' :: t1 ++ '/' :: name) } =
      deleteQueue s tenantId { queueUrl := String.mk (pre ++ '/' :: t2 ++ '/' :: name) }) := by
  have e1 : pre ++ '/' :: t1 ++ '/' :: name = (pre ++ '/' :: t1) ++ '/' :: name := by
    rw [List.append_assoc, List.cons_append]
  have e2 : pre ++ '/' :: t2 ++ '/' :: name = (pre ++ '/' :: t2) ++ '/' :: name := by
    rw [List.append_assoc, List.cons_append]
  have h1 : lastSegment (String.mk (pre ++ '/' :: t1 ++ '/' :: name)) = String.mk name := by
    rw [e1]
    exact lastSegment_append _ name h
  have h2 : lastSegment (String.mk (pre ++ '/' :: t2 ++ '/' :: name)) = String.mk name := by
    rw [e2]
    exact lastSegment_append _ name h
  refine ⟨?_, ?_, ?_, ?_, ?_, ?_⟩ <;> intros <;>
    · simp only [sendMessage, receiveMessage, deleteMessage, getQueueAttributes,
        purgeQueue, deleteQueue]
      rw [h1, h2]

/-- Witness for C3 at concrete inputs: `GetQueueAttributes` for queue `q`
answers identically whether the URL names tenant `1` or tenant `7`. -/
theorem c3_witness :
    getQueueAttributes baseState 1
        { queueUrl := String.mk ("https://sqs.us-east-1.amazonaws.com".data ++
            '/' :: "1".data ++ '/' :: "q".data) } =
      getQueueAttributes baseState 1
        { queueUrl := String.mk ("https://sqs.us-east-1.amazonaws.com".data ++
            '/' :: "7".data ++ '/' :: "q".data) } :=
  (c3_tenant_segment_ignored "https://sqs.us-east-1.amazonaws.com".data
      "1".data "7".data "q".data (by decide) baseState 0 1).2.2.2.1

/-! ## Claim C7 -/

theorem purgeLoop_tombstones (tenantId : Int) (queueName : String) :
    ∀ (ids : List Int) (s : EngineState),
      (∀ m ∈ s.messages, m.tenantId = tenantId → m.queueName = queueName →
        (m.tombstoned = true ∨ m.id ∈ ids)) →
      ∀ m ∈ (purgeLoop s tenantId queueName ids).messages,
        m.tenantId = tenantId → m.queueName = queueName → m.tombstoned = true := by
  intro ids
  induction ids with
  | nil =>
    intro s hinv m hm ht hq
    rcases hinv m hm ht hq with h | h
    · exact h
    · cases h
  | cons i rest ih =>
    intro s hinv m hm ht hq
    have hstep : purgeLoop s tenantId queueName (i :: rest) =
        purgeLoop (match engineDelete s tenantId queueName i with
          | .ok s2 => s2
          | .error _ => s) tenantId queueName rest := by
      rw [purgeLoop, purgeLoop, List.foldl_cons]
    rw [hstep] at hm
    refine ih _ ?_ m hm ht hq
    intro m' hm' ht' hq'
    rcases hd : engineDelete s tenantId queueName i with e | s2
    · rw [hd] at hm'
      rcases hinv m' hm' ht' hq' with h | h
      · exact Or.inl h
      · rcases List.mem_cons.mp h with hi | hr
        · exfalso
          rw [engineDelete] at hd
          split at hd
          · cases hd
          · rename_i hcond
            apply hcond
            refine List.any_eq_true.mpr ⟨m', hm', ?_⟩
            simp [hi, ht', hq']
        · exact Or.inr hr
    · rw [hd] at hm'
      rw [engineDelete] at hd
      split at hd
      · rename_i hcond
        cases hd
        rcases List.mem_map.mp hm' with ⟨m0, hm0, heq⟩
        by_cases hc : (m0.id == i && m0.tenantId == tenantId &&
            m0.queueName == queueName) = true
        · rw [if_pos hc] at heq
          rw [← heq]
          exact Or.inl rfl
        · rw [if_neg hc] at heq
          subst heq
          rcases hinv m0 hm0 ht' hq' with h | h
          · exact Or.inl h
          · rcases List.mem_cons.mp h with hi | hr
            · exfalso
              apply hc
              simp [hi, ht', hq']
            · exact Or.inr hr
      · cases hd

/-- C7: `PurgeQueue` tombstones every message of the queue present at call
time and answers `Success: true`; an enqueue that lands after the purge has
captured its id list (the concrete interleaving in the second conjunct)
survives the purge. -/
theorem c7_purge_best_effort (s : EngineState) (tenantId : Int)
    (req : PurgeQueueRequest) :
    ((purgeQueue s tenantId req).2.success = true ∧
     ∀ m ∈ (purgeQueue s tenantId req).1.messages,
       m.tenantId = tenantId → m.queueName = lastSegment req.queueUrl →
         m.tombstoned = true) ∧
    (purgeLoop lateSendState 1 "q" (engineFilter helloState 1 "q" {})).messages.map
        (fun m => (m.id, m.tombstoned)) = [(1, true), (2, false)] := by
  refine ⟨⟨rfl, ?_⟩, by decide⟩
  intro m hm ht hq
  refine purgeLoop_tombstones tenantId (lastSegment req.queueUrl)
    (engineFilter s tenantId (lastSegment req.queueUrl) {}) s ?_ m hm ht hq
  intro m' hm' ht' hq'
  right
  refine List.mem_map_of_mem _ ?_
  rw [List.mem_filter]
  exact ⟨hm', by simp [ht', hq']⟩

/-- Witness for C7 at concrete inputs: purging `q` holding `helloMsg`
answers `Success: true`, and the stored message (now tombstoned) satisfies
the per-message conclusion. -/
theorem c7_witness :
    (purgeQueue helloState 1 { queueUrl := qUrl }).2.success = true ∧
    ({ id := 1, tenantId := 1, queueName := "q", body := "hello world",
       keyValues := [], visibleAt := 0, visibilityS := 30,
       tombstoned := true } : StoredMessage).tombstoned = true :=
  ⟨(c7_purge_best_effort helloState 1 { queueUrl := qUrl }).1.1,
   (c7_purge_best_effort helloState 1 { queueUrl := qUrl }).1.2
     { id := 1, tenantId := 1, queueName := "q", body := "hello world",
       keyValues := [], visibleAt := 0, visibilityS := 30, tombstoned := true }
     (by decide) (by decide) (by decide)⟩

/-! ## Claim C8 -/

theorem mem_insertByVis (a m : StoredMessage) (l : List StoredMessage) :
    a ∈ insertByVis m l ↔ a = m ∨ a ∈ l := by
  induction l with
  | nil => simp [insertByVis]
  | cons x xs ih =>
    rw [insertByVis]
    split
    · simp [List.mem_cons]
    · simp only [List.mem_cons, ih]
      tauto

theorem mem_sortByVis (a : StoredMessage) (l : List StoredMessage) :
    a ∈ sortByVis l ↔ a ∈ l := by
  induction l with
  | nil => simp [sortByVis]
  | cons x xs ih =>
    rw [sortByVis, mem_insertByVis]
    simp [ih]

/-- C8: every message returned by `ReceiveMessage` carries the decimal
string of a stored message's 64-bit id as both `MessageId` and
`ReceiptHandle`, so the two fields are equal. -/
theorem c8_message_id_is_receipt (s : EngineState) (now tenantId : Int)
    (req : ReceiveMessageRequest) (s' : EngineState) (resp : ReceiveMessageResponse)
    (h : receiveMessage s now tenantId req = .ok (s', resp)) :
    ∀ rm ∈ resp.messages, rm.messageId = rm.receiptHandle ∧
      ∃ sm, sm ∈ s.messages ∧ rm.messageId = toString sm.id ∧
        rm.receiptHandle = toString sm.id := by
  rw [receiveMessage] at h
  rcases hd : dequeue s now tenantId (lastSegment req.queueUrl)
      (if req.maxNumberOfMessages = 0 then 1 else req.maxNumberOfMessages)
    with e | ⟨s1, msgs⟩
  · rw [hd] at h
    cases h
  · rw [hd] at h
    cases h
    intro rm hrm
    rcases List.mem_map.mp hrm with ⟨sm, hsm, rfl⟩
    refine ⟨rfl, sm, ?_, rfl, rfl⟩
    rw [dequeue] at hd
    split at hd
    · cases hd
      have h1 := List.take_subset _ _ hsm
      have h2 := (mem_sortByVis _ _).mp h1
      exact (List.mem_filter.mp h2).1
    · cases hd

set_option maxRecDepth 100000 in
/-- Witness for C8 at concrete inputs: the message received from
`helloState` has `MessageId = ReceiptHandle = "1"`, the decimal string of
the stored id 1. -/
theorem c8_witness :
    helloWireMsg.messageId = helloWireMsg.receiptHandle ∧
    ∃ sm, sm ∈ helloState.messages ∧ helloWireMsg.messageId = toString sm.id ∧
      helloWireMsg.receiptHandle = toString sm.id :=
  c8_message_id_is_receipt helloState 1000 1 overrideRecvReq helloLeasedState
    helloRecvResp (by decide) helloWireMsg (by decide)

/-! ## Claim C1 -/

theorem clampMaxN_pos (n : Int) : 1 ≤ clampMaxN n := by
  rw [clampMaxN]
  split
  · omega
  · split <;> omega

/-- Dequeuing from a state holding exactly one message of the queue, already
eligible, returns exactly that message (for any requested count). -/
theorem dequeue_fresh_singleton (s1 : EngineState) (now' tenantId : Int)
    (qn : String) (maxN : Int) (m : StoredMessage)
    (hmsgs : s1.messages = [m])
    (hq : (tenantId, qn) ∈ s1.queues)
    (ht : m.tenantId = tenantId) (hqn : m.queueName = qn)
    (htomb : m.tombstoned = false) (hvis : m.visibleAt ≤ now') :
    ∃ s2, dequeue s1 now' tenantId qn maxN = .ok (s2, [m]) := by
  rw [dequeue, if_pos hq, hmsgs]
  have hpred : (m.tenantId == tenantId && m.queueName == qn && eligible now' m) = true := by
    simp [ht, hqn, eligible, htomb, hvis]
  have htake : List.take (clampMaxN maxN).toNat (sortByVis ([m].filter
      (fun mm => mm.tenantId == tenantId && mm.queueName == qn && eligible now' mm))) =
      [m] := by
    have hfil : [m].filter
        (fun mm => mm.tenantId == tenantId && mm.queueName == qn && eligible now' mm) =
        [m] := by
      simp [List.filter, hpred]
    rw [hfil]
    have hsort : sortByVis [m] = [m] := rfl
    rw [hsort]
    refine List.take_of_length_le ?_
    have := clampMaxN_pos maxN
    simp
    omega
  simp only [htake]
  exact ⟨_, rfl⟩

/-- C1 (amended): for a send to a fresh queue whose attribute names do not
end in `_DataType`, whose types are among `String`, `Number` and `Binary`,
and whose `Binary` values are canonical base64, a receive that returns the
message yields the sent body and, excluding the internal `_DataType`
markers, the sent attributes: same names, same `DataType`s, `String` and
`Number` values verbatim, and `Binary` values equal up to the base64
coding that crosses the wire in both directions. -/
theorem c1_roundtrip_amended (s : EngineState) (now now' tenantId : Int)
    (sreq : SendMessagePayload) (rreq : ReceiveMessageRequest)
    (hfresh : s.messages = [])
    (hqueue : (tenantId, lastSegment sreq.queueUrl) ∈ s.queues)
    (hsame : lastSegment rreq.queueUrl = lastSegment sreq.queueUrl)
    (hdelay0 : 0 ≤ sreq.delaySeconds) (hdelay9 : sreq.delaySeconds ≤ 900)
    (hnow : now + sreq.delaySeconds ≤ now')
    (hnodup : (sreq.messageAttributes.map Prod.fst).Nodup)
    (hnosuf : ∀ p ∈ sreq.messageAttributes, goHasSuffix p.1 "_DataType" = false)
    (hdt : ∀ p ∈ sreq.messageAttributes,
      p.2.dataType = "String" ∨ p.2.dataType = "Number" ∨ p.2.dataType = "Binary")
    (hbin : ∀ p ∈ sreq.messageAttributes, p.2.dataType = "Binary" →
      ∃ bs, (∀ b ∈ bs, b < 256) ∧ p.2.binaryValue = b64Encode bs) :
    ∃ s1 sresp s2 rresp,
      sendMessage s now tenantId sreq = .ok (s1, sresp) ∧
      receiveMessage s1 now' tenantId rreq = .ok (s2, rresp) ∧
      ∃ rm, rresp.messages = [rm] ∧
        rm.body = sreq.messageBody ∧
        rm.messageAttributes.map Prod.fst = sreq.messageAttributes.map Prod.fst ∧
        ∀ p ∈ sreq.messageAttributes, ∃ a, (p.1, a) ∈ rm.messageAttributes ∧
          a.dataType = p.2.dataType ∧
          ((p.2.dataType = "String" ∨ p.2.dataType = "Number") →
            a.stringValue = p.2.stringValue) ∧
          (p.2.dataType = "Binary" → b64Encode a.binaryValue = p.2.binaryValue) := by
  have hd1 : ¬(sreq.delaySeconds < 0 ∨ 900 < sreq.delaySeconds) := by omega
  have hd2 : ¬((30 : Int) < 0 ∨ (43200 : Int) < 30) := by omega
  have hsend : sendMessage s now tenantId sreq =
      .ok ({ s with
              messages := s.messages ++
                [{ id := s.nextId, tenantId := tenantId,
                   queueName := lastSegment sreq.queueUrl,
                   body := sreq.messageBody,
                   keyValues := flattenAttrs sreq.messageAttributes,
                   visibleAt := now + sreq.delaySeconds, visibilityS := 30,
                   tombstoned := false }],
              nextId := s.nextId + 1 },
            { messageId := toString s.nextId,
              md5OfMessageBody := md5Hex (utf8Encode sreq.messageBody) }) := by
    rw [sendMessage, enqueue, if_neg hd1, if_neg hd2, if_pos hqueue]
  obtain ⟨s2, hdeq⟩ := dequeue_fresh_singleton
    ({ s with
        messages := s.messages ++
          [{ id := s.nextId, tenantId := tenantId,
             queueName := lastSegment sreq.queueUrl,
             body := sreq.messageBody,
             keyValues := flattenAttrs sreq.messageAttributes,
             visibleAt := now + sreq.delaySeconds, visibilityS := 30,
             tombstoned := false }],
        nextId := s.nextId + 1 })
    now' tenantId (lastSegment rreq.queueUrl)
    (if rreq.maxNumberOfMessages = 0 then 1 else rreq.maxNumberOfMessages)
    ({ id := s.nextId, tenantId := tenantId,
       queueName := lastSegment sreq.queueUrl,
       body := sreq.messageBody,
       keyValues := flattenAttrs sreq.messageAttributes,
       visibleAt := now + sreq.delaySeconds, visibilityS := 30,
       tombstoned := false })
    (by rw [hfresh]; rfl) (by rw [hsame]; exact hqueue) rfl (by rw [hsame]) rfl hnow
  have hrecv : receiveMessage
      ({ s with
          messages := s.messages ++
            [{ id := s.nextId, tenantId := tenantId,
               queueName := lastSegment sreq.queueUrl,
               body := sreq.messageBody,
               keyValues := flattenAttrs sreq.messageAttributes,
               visibleAt := now + sreq.delaySeconds, visibilityS := 30,
               tombstoned := false }],
          nextId := s.nextId + 1 })
      now' tenantId rreq =
      .ok (s2,
        { messages := [{ messageId := toString s.nextId,
                         receiptHandle := toString s.nextId,
                         body := sreq.messageBody,
                         md5OfBody := md5Hex (utf8Encode sreq.messageBody),
                         messageAttributes :=
                           unflattenAttrs (flattenAttrs sreq.messageAttributes) }] }) := by
    rw [receiveMessage, hdeq]
    rfl
  refine ⟨_, _, _, _, hsend, hrecv, ?_⟩
  refine ⟨_, rfl, rfl, ?_, ?_⟩
  · show ((flattenAttrs sreq.messageAttributes).filterMap
        (unflattenOne (flattenAttrs sreq.messageAttributes))).map Prod.fst = _
    rw [filterMap_flatten_eq _ _ hnosuf hdt, List.map_map]
    rfl
  · intro p hp
    have hmem : (p.1, recvAttr
        (kvGet (flattenAttrs sreq.messageAttributes) (p.1 ++ "_DataType"))
        (sentValue p.2)) ∈ unflattenAttrs (flattenAttrs sreq.messageAttributes) := by
      show _ ∈ (flattenAttrs sreq.messageAttributes).filterMap
        (unflattenOne (flattenAttrs sreq.messageAttributes))
      rw [filterMap_flatten_eq _ _ hnosuf hdt]
      exact List.mem_map_of_mem _ hp
    rw [kvGet_flatten_marker sreq.messageAttributes hnodup hnosuf p hp] at hmem
    rcases hdt p hp with hdtp | hdtp | hdtp
    · have hra : recvAttr p.2.dataType (sentValue p.2) =
          { dataType := p.2.dataType, stringValue := p.2.stringValue } := by
        simp [recvAttr, sentValue, hdtp]
      refine ⟨_, hmem, by rw [hra], fun _ => by rw [hra], fun hb => ?_⟩
      rw [hdtp] at hb
      exact absurd hb (by decide)
    · have hra : recvAttr p.2.dataType (sentValue p.2) =
          { dataType := p.2.dataType, stringValue := p.2.stringValue } := by
        simp [recvAttr, sentValue, hdtp]
      refine ⟨_, hmem, by rw [hra], fun _ => by rw [hra], fun hb => ?_⟩
      rw [hdtp] at hb
      exact absurd hb (by decide)
    · obtain ⟨bs, hbs, hval⟩ := hbin p hp hdtp
      have hra : recvAttr p.2.dataType (sentValue p.2) =
          { dataType := p.2.dataType, binaryValue := bs } := by
        simp [recvAttr, sentValue, hdtp, hval, b64Decode_b64Encode bs hbs]
      refine ⟨_, hmem, by rw [hra], fun hsn => ?_, fun _ => ?_⟩
      · rw [hdtp] at hsn
        rcases hsn with h | h <;> exact absurd h (by decide)
      · rw [hra]
        show b64Encode bs = p.2.binaryValue
        rw [hval]

set_option maxRecDepth 100000 in
/-- Witness for C1 at concrete inputs: sending a `Binary` attribute `foo`
(base64 `Af8D`) and a `Number` attribute `n` to the fresh queue and
receiving immediately returns the body and both attributes. -/
theorem c1_witness :
    ∃ s1 sresp s2 rresp,
      sendMessage baseState 0 1 attrReq = .ok (s1, sresp) ∧
      receiveMessage s1 0 1 { queueUrl := qUrl } = .ok (s2, rresp) ∧
      ∃ rm, rresp.messages = [rm] ∧
        rm.body = attrReq.messageBody ∧
        rm.messageAttributes.map Prod.fst = attrReq.messageAttributes.map Prod.fst ∧
        ∀ p ∈ attrReq.messageAttributes, ∃ a, (p.1, a) ∈ rm.messageAttributes ∧
          a.dataType = p.2.dataType ∧
          ((p.2.dataType = "String" ∨ p.2.dataType = "Number") →
            a.stringValue = p.2.stringValue) ∧
          (p.2.dataType = "Binary" → b64Encode a.binaryValue = p.2.binaryValue) :=
  c1_roundtrip_amended baseState 0 0 1 attrReq { queueUrl := qUrl }
    rfl (by decide) rfl (by decide) (by decide) (by decide) (by decide)
    (by decide) (by decide)
    (by
      intro p hp hb
      rcases List.mem_cons.mp hp with rfl | hp2
      · exact ⟨[1, 255, 3], by decide, by decide⟩
      · rcases List.mem_cons.mp hp2 with rfl | hp3
        · exact absurd hb (by decide)
        · cases hp3)

set_option maxRecDepth 100000 in
/-- Counterexample to C1 as stated: the attribute sent under the user-level
name `a_DataType` (which is not one of the internal `_DataType` markers the
flatten loop writes) is silently dropped: the received message carries no
attributes at all. -/
theorem c1_counterexample :
    sendMessage baseState 0 1 clashReq = .ok (clashState, clashSendResp) ∧
    receiveMessage clashState 0 1 { queueUrl := qUrl } =
      .ok (clashLeasedState, clashRecvResp) ∧
    clashReq.messageAttributes.map Prod.fst = ["a_DataType"] ∧
    clashRecvResp.messages.map Message.messageAttributes = [[]] ∧
    [[]] ≠ [[(("a_DataType" : String),
      ({ dataType := "String", stringValue := "v" } : MessageAttribute))]] := by
  refine ⟨by decide, by decide, rfl, rfl, by decide⟩

end SmoothMQ

